import Mathlib

/- Shallow embedding of the gmail-mcp request/response shaping layer
   (src/gmail.py, src/helpers.py, src/server.py, mcp_gmail/server.py).
   Pure functions are translated directly; external collaborators
   (the Gmail provider, the base64url decoder, the RFC 2822 date parser,
   the Unicode alphanumeric test, the Unicode decimal-digit class and
   digit value used by re \d, strptime and int()) are passed in as
   function parameters. -/

/-- Python truthiness of an optional string: present and non-empty. -/
def pyTruthy : Option String → Bool
  | none => false
  | some s => s ≠ ""

/-- Python rendering of a bool (str(True) = "True"). -/
def pyStrBool (b : Bool) : String := if b then "True" else "False"

/- A node of the Gmail MIME part tree and its part list, as a mutual
   inductive so the tree walks below are structural recursions. -/
mutual
/-- A node of the Gmail MIME part tree: mimeType, filename, body.data,
    body.attachmentId, body.size, and nested parts (absent ≡ empty list,
    indistinguishable for every traversal in the source). -/
inductive MimePart where
  | mk (mimeType : String) (filename : Option String) (data : Option String)
      (attachmentId : Option String) (size : Option Nat) (parts : MimeParts)
inductive MimeParts where
  | nil
  | cons (p : MimePart) (ps : MimeParts)
end

/-- View a part list as an ordinary list (used only in statements). -/
def MimeParts.toList : MimeParts → List MimePart
  | .nil => []
  | .cons p ps => p :: MimeParts.toList ps

/-- Python any() over a part list. -/
def MimeParts.any (f : MimePart → Bool) : MimeParts → Bool
  | .nil => false
  | .cons p ps => f p || MimeParts.any f ps

def MimePart.mimeType : MimePart → String
  | .mk m _ _ _ _ _ => m

def MimePart.filename : MimePart → Option String
  | .mk _ f _ _ _ _ => f

def MimePart.data : MimePart → Option String
  | .mk _ _ d _ _ _ => d

def MimePart.attachmentId : MimePart → Option String
  | .mk _ _ _ a _ _ => a

def MimePart.size : MimePart → Option Nat
  | .mk _ _ _ _ s _ => s

def MimePart.parts : MimePart → MimeParts
  | .mk _ _ _ _ _ ps => ps

/-- The top-level payload of a Gmail message. `parts = none` models a
    message object without a 'parts' key (single-part message); that
    distinction is observable at the top level of the source. -/
structure Payload where
  mimeType : String
  filename : Option String
  data : Option String
  attachmentId : Option String
  size : Option Nat
  headers : List (String × String)
  parts : Option MimeParts

/-- A Gmail message object (the fields the shaping layer reads). -/
structure Message where
  threadId : Option String
  labelIds : List String
  payload : Payload

/-- Embeds get_text_part of parse_message_body (src/gmail.py): walk the part
    list; a text/plain part contributes its decoded body data (if any) and is
    not descended into; any other part is descended into. `dec` is the
    external base64url-decode collaborator. -/
def getTextPart (dec : String → String) : MimeParts → String
  | .nil => ""
  | .cons (.mk mime _ data _ _ parts) ps =>
    (if mime = "text/plain" then
      match data with
      | some d => dec d
      | none => ""
    else getTextPart dec parts) ++ getTextPart dec ps

/-- Embeds parse_message_body (src/gmail.py): multipart messages are walked by
    getTextPart; single-part messages return their decoded body data. -/
def parse_message_body (dec : String → String) (m : Message) : String :=
  match m.payload.parts with
  | some ps => getTextPart dec ps
  | none =>
    match m.payload.data with
    | some d => dec d
    | none => ""

/-- Embeds check_message_has_attachments (src/helpers.py): shallow scan of the
    immediate part list for a truthy filename. -/
def check_message_has_attachments (m : Message) : Bool :=
  match m.payload.parts with
  | some ps => ps.any fun p => pyTruthy p.filename
  | none => false

/-- Attachment metadata as collected by list_message_attachments. -/
structure AttachmentInfo where
  filename : String
  attachment_id : String
  mime_type : String
  size_bytes : Nat
deriving DecidableEq, Repr

/-- Embeds the recursive helper of list_message_attachments (src/gmail.py):
    pre-order traversal collecting every part with a truthy filename and a
    truthy body.attachmentId. -/
def find_attachments : MimeParts → List AttachmentInfo
  | .nil => []
  | .cons (.mk mime fn _ aid sz parts) ps =>
    (match fn, aid with
     | some f, some a =>
       if f ≠ "" ∧ a ≠ "" then [⟨f, a, mime, sz.getD 0⟩] else []
     | _, _ => []) ++ find_attachments parts ++ find_attachments ps

/-- Embeds list_message_attachments (src/gmail.py) applied to an already
    fetched message. -/
def list_message_attachments (m : Message) : List AttachmentInfo :=
  match m.payload.parts with
  | some ps => find_attachments ps
  | none =>
    match m.payload.filename, m.payload.attachmentId with
    | some f, some a =>
      if f ≠ "" ∧ a ≠ "" then [⟨f, a, m.payload.mimeType, m.payload.size.getD 0⟩]
      else []
    | _, _ => []

/-- The character class kept by sanitize_filename: alphanumeric (external
    Unicode test `ia`, Python str.isalnum) or one of the literal chars of
    the string ".-_ " (dot, dash, underscore, space). -/
def allowedChar (ia : Char → Bool) (c : Char) : Bool :=
  ia c || c == '.' || c == '-' || c == '_' || c == ' '

/-- Step 1 of sanitize_filename: replace every disallowed character by an
    underscore. -/
def replaceDisallowed (ia : Char → Bool) (l : List Char) : List Char :=
  l.map fun c => if allowedChar ia c then c else '_'

/-- Step 2 of sanitize_filename: an empty or dot-leading intermediate result
    gets the literal "file_" prepended. -/
def fixLeadingDot (l : List Char) : List Char :=
  if l.isEmpty || l.head? == some '.' then "file_".toList ++ l else l

/-- Step 3 of sanitize_filename: truncate to 200 characters. -/
def truncate200 (l : List Char) : List Char :=
  if 200 < l.length then l.take 200 else l

/-- Embeds sanitize_filename (src/helpers.py), parameterized by the external
    alphanumeric test `ia`. -/
def sanitize_filename (ia : Char → Bool) (s : String) : String :=
  ⟨truncate200 (fixLeadingDot (replaceDisallowed ia s.data))⟩

/- Python regular expressions on str treat \d as any Unicode decimal digit
   (category Nd), and int() converts such digit strings positionally. The
   Unicode digit test and the digit value are external collaborators here:
   `pyd` models the \d character class and `pydv` the decimal value a digit
   contributes under int(). On the ASCII range pyd agrees with Char.isDigit
   and pydv with digitVal below. -/

/-- The regex shape \d4 slash \d2 slash \d2 as an exact 10-character match,
    with \d the Unicode digit collaborator `pyd`. -/
def isDatePatShape (pyd : Char → Bool) : List Char → Bool
  | [a, b, c, d, s1, e, f, s2, g, h] =>
    pyd a && pyd b && pyd c && pyd d && s1 == '/' &&
    pyd e && pyd f && s2 == '/' && pyd g && pyd h
  | _ => false

/-- Python re.match semantics for the anchored date pattern: the dollar anchor
    also matches just before one trailing newline. -/
def pyMatchDate (pyd : Char → Bool) (l : List Char) : Bool :=
  isDatePatShape pyd l ||
    (match l.getLast? with
     | some c => c == '\n' && isDatePatShape pyd l.dropLast
     | none => false)

/-- The decimal value of an ASCII digit. -/
def digitVal (c : Char) : Nat := c.toNat - 48

/-- The strptime %Y directive: exactly four Unicode digits, converted by
    int() through the digit-value collaborator `pydv`. -/
def parseYear (pyd : Char → Bool) (pydv : Char → Nat) :
    List Char → Option (Nat × List Char)
  | a :: b :: c :: d :: rest =>
    if pyd a && pyd b && pyd c && pyd d then
      some (1000 * pydv a + 100 * pydv b + 10 * pydv c + pydv d, rest)
    else none
  | _ => none

/-- The strptime %m directive (regex alternation 1[0-2], 0[1-9], [1-9]). -/
def parseMonthChars : List Char → Option (Nat × List Char)
  | c :: c2 :: rest =>
    if c == '1' then
      if c2 == '0' || c2 == '1' || c2 == '2' then some (10 + digitVal c2, rest)
      else some (1, c2 :: rest)
    else if c == '0' then
      if '1' ≤ c2 && c2 ≤ '9' then some (digitVal c2, rest) else none
    else if '2' ≤ c && c ≤ '9' then some (digitVal c, c2 :: rest)
    else none
  | [c] => if '1' ≤ c && c ≤ '9' then some (digitVal c, []) else none
  | [] => none

/-- The strptime %d directive (regex alternation 3[01], [12]\d, 0[1-9],
    [1-9]): only the \d of the second alternative is a Unicode digit class;
    the literals and ranges are ASCII. -/
def parseDayChars (pyd : Char → Bool) (pydv : Char → Nat) :
    List Char → Option (Nat × List Char)
  | c :: c2 :: rest =>
    if c == '3' then
      if c2 == '0' || c2 == '1' then some (30 + digitVal c2, rest)
      else some (3, c2 :: rest)
    else if (c == '1' || c == '2') && pyd c2 then
      some (10 * digitVal c + pydv c2, rest)
    else if c == '0' then
      if '1' ≤ c2 && c2 ≤ '9' then some (digitVal c2, rest) else none
    else if '1' ≤ c && c ≤ '9' then some (digitVal c, c2 :: rest)
    else none
  | [c] => if '1' ≤ c && c ≤ '9' then some (digitVal c, []) else none
  | [] => none

/-- The month directive followed by the literal slash of the format. -/
def monthSlashStep (l : List Char) : Option (Nat × List Char) :=
  match parseMonthChars l with
  | some (m, c :: r) => if c == '/' then some (m, r) else none
  | _ => none

/-- The day directive followed by the end-of-input check (strptime raises on
    unconverted data). -/
def dayEndStep (pyd : Char → Bool) (pydv : Char → Nat) (l : List Char) : Option Nat :=
  match parseDayChars pyd pydv l with
  | some (d, []) => some d
  | _ => none

/-- datetime.strptime with format %Y/%m/%d: year, slash, month, slash, day,
    and no unconverted data may remain. -/
def strptimeYmdChars (pyd : Char → Bool) (pydv : Char → Nat) (l : List Char) :
    Option (Nat × Nat × Nat) :=
  match parseYear pyd pydv l with
  | some (y, c :: r2) =>
    if c == '/' then
      match monthSlashStep r2 with
      | some (m, r3) =>
        match dayEndStep pyd pydv r3 with
        | some d => some (y, m, d)
        | none => none
      | none => none
    else none
  | _ => none

def isLeapYear (y : Nat) : Bool :=
  y % 4 == 0 && (y % 100 != 0 || y % 400 == 0)

def daysInMonth (y m : Nat) : Nat :=
  if m == 2 then (if isLeapYear y then 29 else 28)
  else if m == 4 || m == 6 || m == 9 || m == 11 then 30
  else 31

/-- The range checks performed by the datetime constructor. -/
def datetimeCtorOk (y m d : Nat) : Bool :=
  decide (1 ≤ y) && decide (y ≤ 9999) && decide (1 ≤ m) && decide (m ≤ 12) &&
  decide (1 ≤ d) && decide (d ≤ daysInMonth y m)

/-- Embeds validate_date_format (src/helpers.py and mcp_gmail/server.py):
    empty or absent input is valid; otherwise the anchored regex must match
    and strptime/datetime must accept the string. -/
def validate_date_format (pyd : Char → Bool) (pydv : Char → Nat) :
    Option String → Bool
  | none => true
  | some s =>
    if s = "" then true
    else if ! pyMatchDate pyd s.toList then false
    else
      match strptimeYmdChars pyd pydv s.toList with
      | some (y, m, d) => datetimeCtorOk y m d
      | none => false

/-- Embeds format_email_date (src/helpers.py). The RFC 2822 parse plus
    local-timezone strftime rendering is the external collaborator
    `parseFmt`; `none` models the caught ValueError/TypeError/AttributeError. -/
def format_email_date (parseFmt : String → Option String) (date_str : String) : String :=
  if date_str = "" || date_str = "Unknown Date" then "Unknown Date"
  else
    match parseFmt date_str with
    | some formatted => formatted
    | none => date_str

/-- Embeds get_gmail_web_url (src/helpers.py and mcp_gmail/server.py). -/
def get_gmail_web_url (account_index : Nat) (message_id : String) : String :=
  "https://mail.google.com/mail/u/" ++ toString account_index ++ "/#all/" ++ message_id

/-- Python dict lookup over the header pair list built by get_headers_dict:
    the last pair with the requested name wins. -/
def dictLookup (hs : List (String × String)) (name : String) : Option String :=
  hs.foldl (fun acc p => if p.1 = name then some p.2 else acc) none

/-- headers.get(name, default). -/
def getHeaderD (hs : List (String × String)) (name dflt : String) : String :=
  (dictLookup hs name).getD dflt

/-- One query clause for a truthy optional string parameter. -/
def strClause (pre : String) : Option String → List String
  | some v => if v = "" then [] else [pre ++ v]
  | none => []

/-- One query clause for a bool parameter that is present and true. -/
def boolClause (clause : String) : Option Bool → List String
  | some true => [clause]
  | _ => []

/-- The keyword arguments of search_messages (src/gmail.py). -/
structure SearchMessagesArgs where
  read_status : Option String
  labels : Option (List String)
  from_email : Option String
  to_email : Option String
  subject : Option String
  after : Option String
  before : Option String
  has_attachment : Option Bool
  is_starred : Option Bool
  is_important : Option Bool
  in_trash : Option Bool

/-- Embeds the query_parts list built by search_messages (src/gmail.py),
    in the source's append order. -/
def search_messages_query_parts (a : SearchMessagesArgs) : List String :=
  (match a.read_status with
   | none => []
   | some s => if s = "read" then ["is:read"] else if s = "unread" then ["is:unread"] else []) ++
  (match a.labels with
   | none => []
   | some ls => ls.map fun l => "label:" ++ l) ++
  strClause "from:" a.from_email ++
  strClause "to:" a.to_email ++
  strClause "subject:" a.subject ++
  strClause "after:" a.after ++
  strClause "before:" a.before ++
  boolClause "has:attachment" a.has_attachment ++
  boolClause "is:starred" a.is_starred ++
  boolClause "is:important" a.is_important ++
  boolClause "in:trash" a.in_trash

/-- The provider query string emitted by search_messages. -/
def search_messages_query (a : SearchMessagesArgs) : String :=
  String.intercalate " " (search_messages_query_parts a)

/-- Python str whitespace test (the characters stripped by str.strip). -/
def pyIsSpace (c : Char) : Bool :=
  c == ' ' || c == '\t' || c == '\n' || c == '\r' || c == '\x0b' || c == '\x0c'

/-- Python str.strip(): drop leading and trailing whitespace. -/
def pyStrip (s : String) : String :=
  ⟨((s.data.dropWhile pyIsSpace).reverse.dropWhile pyIsSpace).reverse⟩

/-- Python str.lower() restricted to the ASCII range used by field names. -/
def pyLower (s : String) : String :=
  ⟨s.data.map Char.toLower⟩

/-- Python str.split(",") helper on characters. -/
def splitCommaAux : List Char → List Char → List (List Char)
  | [], acc => [acc.reverse]
  | c :: cs, acc =>
    if c == ',' then acc.reverse :: splitCommaAux cs [] else splitCommaAux cs (c :: acc)

/-- Python str.split(","). -/
def pySplitComma (s : String) : List String :=
  (splitCommaAux s.data []).map fun l => ⟨l⟩

/-- The field enumeration AVAILABLE_MESSAGE_FIELDS (mcp_gmail/server.py). -/
def AVAILABLE_MESSAGE_FIELDS : List String :=
  ["id", "thread_id", "subject", "from", "to", "date", "body_preview", "body",
   "labels", "has_attachments", "web_url"]

/-- The default field set DEFAULT_MESSAGE_FIELDS (mcp_gmail/server.py). -/
def DEFAULT_MESSAGE_FIELDS : List String := ["id", "subject", "from", "date"]

/-- The requested set of parse_message_fields: split on commas, keep the
    stripped, lowered, non-empty entries. -/
def requested_fields (fp : String) : List String :=
  (pySplitComma fp).filterMap fun f =>
    let t := pyStrip f
    if t = "" then none else some (pyLower t)

/-- The requested names that survive intersection with the enumeration. -/
def valid_fields (fp : String) : List String :=
  (requested_fields fp).filter fun f => AVAILABLE_MESSAGE_FIELDS.contains f

/-- Embeds parse_message_fields (mcp_gmail/server.py). The Python set is
    modelled as a list consumed only through membership. -/
def parse_message_fields : Option String → List String
  | none => DEFAULT_MESSAGE_FIELDS
  | some fp =>
    if pyLower fp = "all" then AVAILABLE_MESSAGE_FIELDS
    else if (valid_fields fp).isEmpty then DEFAULT_MESSAGE_FIELDS
    else valid_fields fp

/-- Embeds format_message_with_fields (mcp_gmail/server.py): the lines are
    appended in the source's fixed order. -/
def format_message_with_fields (dec : String → String) (m : Message)
    (message_id : String) (fields : List String) : String :=
  let headers := m.payload.headers
  let body := parse_message_body dec m
  let result_lines : List String :=
    (if fields.contains "id" then ["Message ID: " ++ message_id] else []) ++
    (if fields.contains "thread_id" then
      (let thread_id := m.threadId.getD ""
       if thread_id = "" then [] else ["Thread ID: " ++ thread_id])
     else []) ++
    (if fields.contains "from" then ["From: " ++ getHeaderD headers "From" "Unknown"] else []) ++
    (if fields.contains "to" then ["To: " ++ getHeaderD headers "To" "Unknown"] else []) ++
    (if fields.contains "subject" then
      ["Subject: " ++ getHeaderD headers "Subject" "No Subject"] else []) ++
    (if fields.contains "date" then ["Date: " ++ getHeaderD headers "Date" "Unknown Date"] else []) ++
    (if fields.contains "labels" then
      (if m.labelIds.isEmpty then [] else ["Labels: " ++ String.intercalate ", " m.labelIds])
     else []) ++
    (if fields.contains "has_attachments" then
      ["Has Attachments: " ++ pyStrBool
        (match m.payload.parts with
         | some ps => ps.any fun p => pyTruthy p.filename
         | none => false)]
     else []) ++
    (if fields.contains "web_url" then ["Web URL: " ++ get_gmail_web_url 0 message_id] else []) ++
    (if fields.contains "body_preview" then
      (let preview := pyStrip ⟨(body.data.take 200).map fun c => if c == '\n' then ' ' else c⟩
       ["Preview: " ++ (if 200 < body.data.length then preview ++ "..." else preview)])
     else []) ++
    (if fields.contains "body" then ["\nBody:\n" ++ body] else [])
  String.intercalate "\n" result_lines

/-- Embeds the fetch loop of get_emails (mcp_gmail/server.py): every id is
    fetched regardless of earlier failures; successes and captured failures
    are appended to two parallel lists. `fetch` is the provider call, its
    error value the stringified exception. -/
def get_emails_collect (fetch : String → Except String Message) (ids : List String) :
    List (String × Message) × List (String × String) :=
  ids.foldl
    (fun acc i =>
      match fetch i with
      | .ok m => (acc.1 ++ [(i, m)], acc.2)
      | .error e => (acc.1, acc.2 ++ [(i, e)]))
    ([], [])

/-- The EmailMetadata model (src/models.py). -/
structure EmailMetadata where
  id : String
  thread_id : String
  subject : String
  from_addr : String
  to_addr : String
  date : String
  labels : List String
  has_attachments : Bool
  web_url : String
deriving DecidableEq, Repr

/-- Embeds build_email_metadata (src/helpers.py). -/
def build_email_metadata (parseFmt : String → Option String) (m : Message)
    (message_id : String) : EmailMetadata :=
  let headers := m.payload.headers
  { id := message_id
    thread_id := m.threadId.getD ""
    subject := getHeaderD headers "Subject" "No Subject"
    from_addr := getHeaderD headers "From" "Unknown"
    to_addr := getHeaderD headers "To" "Unknown"
    date := format_email_date parseFmt (getHeaderD headers "Date" "Unknown Date")
    labels := m.labelIds
    has_attachments := check_message_has_attachments m
    web_url := get_gmail_web_url 0 message_id }

/-- Embeds format_email_as_markdown (src/helpers.py). -/
def format_email_as_markdown (parseFmt : String → Option String) (m : Message)
    (message_id : String) (body : String) : String :=
  let md := build_email_metadata parseFmt m message_id
  "# Email: " ++ md.subject ++ "\n\n" ++
  "**Message ID:** " ++ md.id ++ "\n" ++
  "**Thread ID:** " ++ md.thread_id ++ "\n" ++
  "**From:** " ++ md.from_addr ++ "\n" ++
  "**To:** " ++ md.to_addr ++ "\n" ++
  "**Date:** " ++ md.date ++ "\n" ++
  "**Labels:** " ++ String.intercalate ", " md.labels ++ "\n" ++
  "**Has Attachments:** " ++ pyStrBool md.has_attachments ++ "\n" ++
  "**Web URL:** " ++ md.web_url ++ "\n\n---\n\n## Body\n\n" ++ body ++ "\n"

/-- The typed tool parameters of search_emails (src/server.py). -/
structure SearchParams where
  from_email : Option String
  to_email : Option String
  subject : Option String
  has_attachment : Bool
  read_status : Option String
  after_date : Option String
  before_date : Option String
  label : Option String
  gmail_query : Option String

/-- The explicit-parameter check of search_emails: some parameter of the
    explicit_params list is not None and not False. -/
def anyExplicitParam (p : SearchParams) : Bool :=
  p.from_email.isSome || p.to_email.isSome || p.subject.isSome || p.has_attachment ||
  p.read_status.isSome || p.after_date.isSome || p.before_date.isSome || p.label.isSome

/-- The search_messages keyword arguments passed by search_emails
    (src/server.py): labels is the one-element list when label is truthy. -/
def searchArgsOf (p : SearchParams) : SearchMessagesArgs :=
  { read_status := p.read_status
    labels := match p.label with
      | some l => if l = "" then none else some [l]
      | none => none
    from_email := p.from_email
    to_email := p.to_email
    subject := p.subject
    after := p.after_date
    before := p.before_date
    has_attachment := some p.has_attachment
    is_starred := none
    is_important := none
    in_trash := none }

/-- The reconstructed query string that search_emails (src/server.py) prints
    into the result document for the structured path: only sender, recipient
    and subject clauses, or the literal "all messages". -/
def build_result_query_str (p : SearchParams) : String :=
  let query_parts :=
    strClause "from:" p.from_email ++ strClause "to:" p.to_email ++
    strClause "subject:" p.subject
  if query_parts.isEmpty then "all messages" else String.intercalate " " query_parts

/-- The markdown header block of the search-results document. -/
def search_results_header (query_str : String) (n : Nat) : String :=
  "# Gmail Search Results\n\n**Query:** " ++ query_str ++ "\n**Results:** " ++
  toString n ++ " emails\n\n---\n\n"

/-- One numbered subsection of the search-results document. -/
def search_result_section (parseFmt : String → Option String) (dec : String → String)
    (getMsg : String → Message) (i : Nat) (msg_id : String) : String :=
  let message := getMsg msg_id
  let body := parse_message_body dec message
  "## Email " ++ toString i ++ "\n\n" ++
  format_email_as_markdown parseFmt message msg_id body ++ "\n\n---\n\n"

/-- The enumerate(messages, 1) loop appending one subsection per match. -/
def search_result_sections (parseFmt : String → Option String) (dec : String → String)
    (getMsg : String → Message) : Nat → List String → String
  | _, [] => ""
  | i, msg_id :: ids =>
    search_result_section parseFmt dec getMsg i msg_id ++
    search_result_sections parseFmt dec getMsg (i + 1) ids

/-- What a search_emails invocation (src/server.py) produced: the provider
    query actually searched, the query string printed into the document, the
    provider match ids in order, and the materialized markdown document. -/
structure SearchOutcome where
  providerQuery : String
  queryStr : String
  msgIds : List String
  markdown : String
deriving DecidableEq, Repr

/-- Embeds search_emails (src/server.py) up to file persistence: date
    validation, the mutual-exclusion guard, provider search (`runQuery` maps a
    provider query to the matched message ids, `getMsg` fetches a message),
    and the markdown materialization. Errors are the raised ToolError
    messages. -/
def search_emails (p : SearchParams) (runQuery : String → List String)
    (getMsg : String → Message) (parseFmt : String → Option String)
    (dec : String → String) (pyd : Char → Bool) (pydv : Char → Nat) :
    Except String SearchOutcome :=
  if pyTruthy p.after_date && ! validate_date_format pyd pydv p.after_date then
    .error ("after_date " ++ p.after_date.getD "" ++ " is not in the required format YYYY/MM/DD")
  else if pyTruthy p.before_date && ! validate_date_format pyd pydv p.before_date then
    .error ("before_date " ++ p.before_date.getD "" ++ " is not in the required format YYYY/MM/DD")
  else if pyTruthy p.gmail_query then
    if anyExplicitParam p then
      .error "Cannot use both explicit parameters and gmail_query together. Please use either explicit parameters OR gmail_query, not both."
    else
      let q := p.gmail_query.getD ""
      let ids := runQuery q
      .ok ⟨q, q, ids,
        search_results_header q ids.length ++ search_result_sections parseFmt dec getMsg 1 ids⟩
  else
    let q := search_messages_query (searchArgsOf p)
    let ids := runQuery q
    let query_str := build_result_query_str p
    .ok ⟨q, query_str, ids,
      search_results_header query_str ids.length ++
      search_result_sections parseFmt dec getMsg 1 ids⟩

/- Shared concrete collaborators for closed statements: an identity decoder
   (part data given already decoded), an always-failing date parser, an empty
   provider, and a minimal message. -/

def idDec : String → String := fun s => s

def noParse : String → Option String := fun _ => none

def runNone : String → List String := fun _ => []

def emptyMessage : Message :=
  { threadId := none, labelIds := [],
    payload := { mimeType := "text/plain", filename := none, data := none,
                 attachmentId := none, size := none, headers := [], parts := none } }

def msgOracleEmpty : String → Message := fun _ => emptyMessage

/-- The clause list described by the spec (section 4.1): one clause per active
    predicate, in the fixed order read-status, labels (one clause per label in
    input order), sender, recipient, subject, after, before, has-attachment,
    starred, important, trash; nothing for false or absent predicates. -/
def spec_query_clauses (a : SearchMessagesArgs) : List String :=
  (if a.read_status == some "read" then ["is:read"] else []) ++
  (if a.read_status == some "unread" then ["is:unread"] else []) ++
  ((a.labels.getD []).map fun l => "label:" ++ l) ++
  (if pyTruthy a.from_email then ["from:" ++ a.from_email.getD ""] else []) ++
  (if pyTruthy a.to_email then ["to:" ++ a.to_email.getD ""] else []) ++
  (if pyTruthy a.subject then ["subject:" ++ a.subject.getD ""] else []) ++
  (if pyTruthy a.after then ["after:" ++ a.after.getD ""] else []) ++
  (if pyTruthy a.before then ["before:" ++ a.before.getD ""] else []) ++
  (if a.has_attachment == some true then ["has:attachment"] else []) ++
  (if a.is_starred == some true then ["is:starred"] else []) ++
  (if a.is_important == some true then ["is:important"] else []) ++
  (if a.in_trash == some true then ["in:trash"] else [])

theorem strClause_eq (pre : String) (o : Option String) :
    strClause pre o = if pyTruthy o then [pre ++ o.getD ""] else [] := by
  cases o with
  | none => rfl
  | some v =>
    by_cases hv : v = "" <;> simp [strClause, pyTruthy, hv]

theorem boolClause_eq (cl : String) (o : Option Bool) :
    boolClause cl o = if o == some true then [cl] else [] := by
  cases o with
  | none => rfl
  | some b => cases b <;> rfl

/-- C2: for structured filters whose read status is one of the enumeration
    values, the emitted provider query is exactly one clause per active
    predicate in the fixed spec order (read-status, labels in input order,
    sender, recipient, subject, after, before, has-attachment, starred,
    important, trash) and no clause for false or absent predicates; the filter
    with sender a@b.com and read status unread yields "is:unread from:a@b.com"
    and the empty filter yields the empty string. -/
theorem query_builder_emits_spec_clauses :
    (∀ a : SearchMessagesArgs,
      a.read_status = none ∨ a.read_status = some "read" ∨ a.read_status = some "unread" →
      search_messages_query_parts a = spec_query_clauses a ∧
      search_messages_query a = String.intercalate " " (spec_query_clauses a)) ∧
    search_messages_query
      ⟨some "unread", none, some "a@b.com", none, none, none, none, none, none, none, none⟩ =
      "is:unread from:a@b.com" ∧
    search_messages_query ⟨none, none, none, none, none, none, none, none, none, none, none⟩ = "" := by
  refine ⟨?_, by decide, by decide⟩
  intro a h
  have hlab : (match a.labels with
      | none => ([] : List String)
      | some ls => ls.map fun l => "label:" ++ l) = (a.labels.getD []).map fun l => "label:" ++ l := by
    cases a.labels <;> rfl
  have hparts : search_messages_query_parts a = spec_query_clauses a := by
    rcases h with h | h | h <;>
      simp [search_messages_query_parts, spec_query_clauses, h, strClause_eq, boolClause_eq, hlab]
  exact ⟨hparts, by rw [search_messages_query, hparts]⟩

def argsW : SearchMessagesArgs :=
  ⟨some "read", some ["x", "y"], some "a@b", some "", none, some "2024/01/01", none,
   some true, some false, none, some true⟩

theorem query_builder_emits_spec_clauses_witness :
    search_messages_query_parts argsW = spec_query_clauses argsW ∧
    search_messages_query argsW = String.intercalate " " (spec_query_clauses argsW) :=
  query_builder_emits_spec_clauses.1 argsW (Or.inr (Or.inl rfl))

/-- C1: a search invocation that supplies the raw gmail_query together with
    any structured parameter that is not absent and not false raises a
    ToolError (the InvalidArgument kind of the spec) and no provider query is
    ever built from the merged forms. -/
theorem raw_query_with_structured_params_fails (p : SearchParams)
    (runQuery : String → List String) (getMsg : String → Message)
    (parseFmt : String → Option String) (dec : String → String)
    (pyd : Char → Bool) (pydv : Char → Nat)
    (hq : pyTruthy p.gmail_query = true) (hx : anyExplicitParam p = true) :
    ∃ e, search_emails p runQuery getMsg parseFmt dec pyd pydv = Except.error e := by
  unfold search_emails
  split
  · exact ⟨_, rfl⟩
  · split
    · exact ⟨_, rfl⟩
    · exact ⟨_, rfl⟩

def pBoth : SearchParams :=
  ⟨some "x@y.com", none, none, false, none, none, none, none, some "is:read"⟩

theorem raw_query_with_structured_params_fails_witness :
    pyTruthy pBoth.gmail_query = true ∧ anyExplicitParam pBoth = true ∧
    ∃ e, search_emails pBoth runNone msgOracleEmpty noParse idDec Char.isDigit digitVal =
      Except.error e :=
  ⟨by decide, by decide,
    raw_query_with_structured_params_fails pBoth runNone msgOracleEmpty noParse idDec
      Char.isDigit digitVal (by decide) (by decide)⟩

theorem get_emails_collect_go (fetch : String → Except String Message) (ids : List String) :
    ∀ acc : List (String × Message) × List (String × String),
      ids.foldl
        (fun acc i =>
          match fetch i with
          | .ok m => (acc.1 ++ [(i, m)], acc.2)
          | .error e => (acc.1, acc.2 ++ [(i, e)]))
        acc =
      (acc.1 ++ ids.filterMap (fun i =>
          match fetch i with
          | .ok m => some (i, m)
          | .error _ => none),
        acc.2 ++ ids.filterMap (fun i =>
          match fetch i with
          | .ok _ => none
          | .error e => some (i, e))) := by
  induction ids with
  | nil => intro acc; simp
  | cons i ids ih =>
    intro acc
    cases hfi : fetch i <;> simp [List.foldl_cons, hfi, ih, List.filterMap_cons]

def fetchW : String → Except String Message :=
  fun i => if i = "id2" then .error "boom" else .ok emptyMessage

/-- C7: under the list policy the multi-message fetch calls the provider for
    every id regardless of earlier failures, collecting successes in input
    order and failures in a parallel (id, error) list; for the batch id1 id2
    id3 where id2 raises, the result is the two successes id1, id3 in order
    plus the single captured failure for id2. -/
theorem get_emails_list_policy_collects :
    (∀ (fetch : String → Except String Message) (ids : List String),
      (get_emails_collect fetch ids).1 =
        ids.filterMap (fun i =>
          match fetch i with
          | .ok m => some (i, m)
          | .error _ => none) ∧
      (get_emails_collect fetch ids).2 =
        ids.filterMap (fun i =>
          match fetch i with
          | .ok _ => none
          | .error e => some (i, e)) ∧
      (get_emails_collect fetch ids).1.length + (get_emails_collect fetch ids).2.length =
        ids.length) ∧
    get_emails_collect fetchW ["id1", "id2", "id3"] =
      ([("id1", emptyMessage), ("id3", emptyMessage)], [("id2", "boom")]) := by
  constructor
  · intro fetch ids
    have h := get_emails_collect_go fetch ids ([], [])
    have h1 : (get_emails_collect fetch ids).1 =
        ids.filterMap (fun i =>
          match fetch i with
          | .ok m => some (i, m)
          | .error _ => none) := by
      rw [get_emails_collect, h]
      simp
    have h2 : (get_emails_collect fetch ids).2 =
        ids.filterMap (fun i =>
          match fetch i with
          | .ok _ => none
          | .error e => some (i, e)) := by
      rw [get_emails_collect, h]
      simp
    refine ⟨h1, h2, ?_⟩
    rw [h1, h2]
    clear h h1 h2
    induction ids with
    | nil => rfl
    | cons i ids ih =>
      cases hfi : fetch i <;> simp [List.filterMap_cons, hfi] <;> omega
  · rfl

/-- C8 counterexample: with a date parser that fails on every input (the
    always-raising collaborator), the empty header date string is not returned
    unchanged; the fallback literal is emitted instead. -/
theorem format_email_date_empty_not_unchanged :
    format_email_date noParse "" = "Unknown Date" ∧ format_email_date noParse "" ≠ "" := by
  constructor
  · rfl
  · decide

/-- C8 amended: for every header date string other than the empty string, a
    parse failure returns the original string unchanged and a parse success
    (outside the fallback literal) returns the rendered form; the empty string
    yields the fallback literal Unknown Date. -/
theorem format_email_date_graceful (parseFmt : String → Option String) (s : String)
    (hs : s ≠ "") :
    (parseFmt s = none → format_email_date parseFmt s = s) ∧
    (s ≠ "Unknown Date" → ∀ f, parseFmt s = some f → format_email_date parseFmt s = f) ∧
    format_email_date parseFmt "" = "Unknown Date" := by
  refine ⟨?_, ?_, rfl⟩
  · intro hp
    by_cases hu : s = "Unknown Date"
    · simp [format_email_date, hu]
    · simp [format_email_date, hs, hu, hp]
  · intro hu f hp
    simp [format_email_date, hs, hu, hp]

theorem format_email_date_graceful_witness :
    ("not a date" ≠ "" ∧ format_email_date noParse "not a date" = "not a date") ∧
    format_email_date (fun _ => some "2025-10-28 09:56 AM PDT") "Tue, 28 Oct 2025" =
      "2025-10-28 09:56 AM PDT" :=
  ⟨⟨by decide, (format_email_date_graceful noParse "not a date" (by decide)).1 rfl⟩,
    (format_email_date_graceful (fun _ => some "2025-10-28 09:56 AM PDT") "Tue, 28 Oct 2025"
      (by decide)).2.1 (by decide) _ rfl⟩

theorem allowedChar_underscore (ia : Char → Bool) : allowedChar ia '_' = true := by
  simp [allowedChar]

theorem mem_replace_allowed (ia : Char → Bool) (l : List Char) :
    ∀ c ∈ replaceDisallowed ia l, allowedChar ia c = true := by
  intro c hc
  simp only [replaceDisallowed, List.mem_map] at hc
  obtain ⟨a, -, rfl⟩ := hc
  by_cases h : allowedChar ia a = true
  · rw [if_pos h]; exact h
  · rw [if_neg h]; exact allowedChar_underscore ia

theorem file_chars_allowed (ia : Char → Bool)
    (hf : ia 'f' = true) (hi : ia 'i' = true) (hl : ia 'l' = true) (he : ia 'e' = true) :
    ∀ c ∈ "file_".toList, allowedChar ia c = true := by
  have hlit : "file_".toList = ['f', 'i', 'l', 'e', '_'] := rfl
  rw [hlit]
  intro c hc
  fin_cases hc <;> simp [allowedChar, hf, hi, hl, he]

theorem mem_fix_allowed (ia : Char → Bool) (l : List Char)
    (hall : ∀ c ∈ l, allowedChar ia c = true)
    (hf : ia 'f' = true) (hi : ia 'i' = true) (hl : ia 'l' = true) (he : ia 'e' = true) :
    ∀ c ∈ fixLeadingDot l, allowedChar ia c = true := by
  unfold fixLeadingDot
  split
  · intro c hc
    rcases List.mem_append.mp hc with h | h
    · exact file_chars_allowed ia hf hi hl he c h
    · exact hall c h
  · exact hall

theorem mem_trunc (l : List Char) : ∀ c ∈ truncate200 l, c ∈ l := by
  unfold truncate200
  split
  · exact fun c hc => List.mem_of_mem_take hc
  · exact fun c hc => hc

theorem replace_id_of_allowed (ia : Char → Bool) (l : List Char)
    (hall : ∀ c ∈ l, allowedChar ia c = true) : replaceDisallowed ia l = l := by
  unfold replaceDisallowed
  induction l with
  | nil => rfl
  | cons a t ih =>
    simp only [List.map_cons]
    rw [if_pos (hall a (List.mem_cons_self a t)),
      ih fun c hc => hall c (List.mem_cons_of_mem a hc)]

theorem fix_id_of_clean (l : List Char) (hne : l ≠ []) (hd : l.head? ≠ some '.') :
    fixLeadingDot l = l := by
  unfold fixLeadingDot
  rw [if_neg]
  intro hc
  simp only [Bool.or_eq_true, List.isEmpty_iff, beq_iff_eq] at hc
  rcases hc with h | h
  · exact hne h
  · exact hd h

theorem trunc_id_of_short (l : List Char) (hlen : l.length ≤ 200) : truncate200 l = l := by
  unfold truncate200
  rw [if_neg]
  omega

theorem trunc_head (l : List Char) : (truncate200 l).head? = l.head? := by
  unfold truncate200
  split
  · cases l with
    | nil => rfl
    | cons a t => rfl
  · rfl

theorem trunc_ne_nil (l : List Char) (h : l ≠ []) : truncate200 l ≠ [] := by
  unfold truncate200
  split
  · cases l with
    | nil => exact absurd rfl h
    | cons a t => simp
  · exact h

theorem trunc_len (l : List Char) : (truncate200 l).length ≤ 200 := by
  unfold truncate200
  split
  · simp [List.length_take]
  · omega

theorem fix_ne_nil (l : List Char) : fixLeadingDot l ≠ [] := by
  unfold fixLeadingDot
  split
  · simp
  · next hc =>
    intro hl
    exact hc (by simp [hl])

theorem fix_head_cases (l : List Char) :
    (fixLeadingDot l).head? = some 'f' ∨
      (fixLeadingDot l = l ∧ l.head? ≠ some '.') := by
  unfold fixLeadingDot
  split
  · left; rfl
  · next hc =>
    right
    refine ⟨rfl, fun hd => hc ?_⟩
    simp [hd]

/-- C5: sanitize_filename is idempotent, its output never starts with a dot,
    every output character is alphanumeric (under the external test, which
    accepts the letters of the word file) or one of dot, dash, underscore,
    space, and the output length is at most 200. -/
theorem sanitize_filename_idempotent_safe (ia : Char → Bool) (s : String)
    (hf : ia 'f' = true) (hi : ia 'i' = true) (hl : ia 'l' = true) (he : ia 'e' = true) :
    sanitize_filename ia (sanitize_filename ia s) = sanitize_filename ia s ∧
    (sanitize_filename ia s).data.head? ≠ some '.' ∧
    (∀ c ∈ (sanitize_filename ia s).data, allowedChar ia c = true) ∧
    (sanitize_filename ia s).length ≤ 200 := by
  have hyall : ∀ c ∈ truncate200 (fixLeadingDot (replaceDisallowed ia s.data)),
      allowedChar ia c = true := by
    intro c hc
    exact mem_fix_allowed ia _ (mem_replace_allowed ia s.data) hf hi hl he c
      (mem_trunc _ c hc)
  have hyhead : (truncate200 (fixLeadingDot (replaceDisallowed ia s.data))).head? ≠
      some '.' := by
    rw [trunc_head]
    rcases fix_head_cases (replaceDisallowed ia s.data) with h | ⟨heq, h⟩
    · rw [h]; decide
    · rw [heq]; exact h
  have hyne : truncate200 (fixLeadingDot (replaceDisallowed ia s.data)) ≠ [] :=
    trunc_ne_nil _ (fix_ne_nil _)
  have hylen : (truncate200 (fixLeadingDot (replaceDisallowed ia s.data))).length ≤ 200 :=
    trunc_len _
  refine ⟨?_, hyhead, hyall, hylen⟩
  show String.mk (truncate200 (fixLeadingDot (replaceDisallowed ia
    (truncate200 (fixLeadingDot (replaceDisallowed ia s.data)))))) = _
  rw [replace_id_of_allowed ia _ hyall, fix_id_of_clean _ hyne hyhead,
    trunc_id_of_short _ hylen]
  rfl

theorem sanitize_filename_idempotent_safe_witness :
    sanitize_filename Char.isAlphanum (sanitize_filename Char.isAlphanum "..weird<>name.txt") =
      sanitize_filename Char.isAlphanum "..weird<>name.txt" ∧
    (sanitize_filename Char.isAlphanum "..weird<>name.txt").data.head? ≠ some '.' ∧
    (∀ c ∈ (sanitize_filename Char.isAlphanum "..weird<>name.txt").data,
      allowedChar Char.isAlphanum c = true) ∧
    (sanitize_filename Char.isAlphanum "..weird<>name.txt").length ≤ 200 :=
  sanitize_filename_idempotent_safe Char.isAlphanum "..weird<>name.txt"
    (by decide) (by decide) (by decide) (by decide)

def MimeParts.isNil : MimeParts → Bool
  | .nil => true
  | .cons _ _ => false

/-- Claim-side body extraction: the concatenation, depth-first and
    left-to-right, of the decoded data of exactly the text/plain leaves of the
    part tree, ignoring all other leaf types. -/
def plainLeafConcat (dec : String → String) : MimeParts → String
  | .nil => ""
  | .cons (.mk mime _ data _ _ .nil) ps =>
    (if mime = "text/plain" then
      match data with
      | some d => dec d
      | none => ""
    else "") ++ plainLeafConcat dec ps
  | .cons (.mk _ _ _ _ _ parts) ps =>
    plainLeafConcat dec parts ++ plainLeafConcat dec ps

/-- Every text/plain node of the part tree is a leaf (true of real Gmail part
    trees, where containers are multipart types). -/
def plainNodesAreLeaves : MimeParts → Bool
  | .nil => true
  | .cons (.mk mime _ _ _ _ parts) ps =>
    (if mime = "text/plain" then parts.isNil else true) && plainNodesAreLeaves parts &&
      plainNodesAreLeaves ps

/-- Claim-side whole-message extraction: a single-part message is one implicit
    leaf under the same text/plain rule. -/
def spec_leaf_extract (dec : String → String) (m : Message) : String :=
  match m.payload.parts with
  | some ps => plainLeafConcat dec ps
  | none =>
    if m.payload.mimeType = "text/plain" then
      match m.payload.data with
      | some d => dec d
      | none => ""
    else ""

def partsSizeN : MimeParts → Nat
  | .nil => 0
  | .cons (.mk _ _ _ _ _ parts) ps => 1 + partsSizeN parts + partsSizeN ps

theorem getTextPart_eq_plainLeafConcat_aux (dec : String → String) :
    ∀ (n : Nat) (ps : MimeParts), partsSizeN ps ≤ n → plainNodesAreLeaves ps = true →
      getTextPart dec ps = plainLeafConcat dec ps := by
  intro n
  induction n with
  | zero =>
    intro ps hsz _
    cases ps with
    | nil => rfl
    | cons p ps =>
      cases p
      simp [partsSizeN] at hsz
  | succ n ih =>
    intro ps hsz hp
    cases ps with
    | nil => rfl
    | cons p ps =>
      cases p with
      | mk mime fn data aid sz parts =>
        simp only [plainNodesAreLeaves, Bool.and_eq_true] at hp
        obtain ⟨⟨h1, h2⟩, h3⟩ := hp
        have hszp : partsSizeN parts ≤ n := by simp [partsSizeN] at hsz; omega
        have hszs : partsSizeN ps ≤ n := by simp [partsSizeN] at hsz; omega
        by_cases hm : mime = "text/plain"
        · have hnil : parts.isNil = true := by rw [if_pos hm] at h1; exact h1
          cases parts with
          | cons q qs => simp [MimeParts.isNil] at hnil
          | nil => simp [getTextPart, plainLeafConcat, hm, ih _ hszs h3]
        · cases parts with
          | nil => simp [getTextPart, plainLeafConcat, hm, ih _ hszs h3]
          | cons q qs =>
            simp [getTextPart, plainLeafConcat, hm, ih _ hszp h2, ih _ hszs h3]

def psTwoLeaves : MimeParts :=
  .cons (.mk "text/plain" none (some "hello") none none .nil)
    (.cons (.mk "text/html" none (some "<p>x</p>") none none .nil) .nil)

def msgTwoLeaves : Message :=
  { threadId := none, labelIds := [],
    payload := { mimeType := "multipart/alternative", filename := none, data := none,
                 attachmentId := none, size := none, headers := [],
                 parts := some psTwoLeaves } }

/-- C4 amended: on part trees whose text/plain nodes are all leaves, body
    extraction is exactly the depth-first left-to-right concatenation of the
    decoded data of the text/plain leaves (other leaves ignored, so an
    HTML-only multipart yields the empty body); a single-part message returns
    its decoded body data regardless of MIME type; the message with one
    text/plain leaf and one text/html leaf yields only the plain content. -/
theorem parse_message_body_plain_leaves :
    (∀ (dec : String → String) (ps : MimeParts), plainNodesAreLeaves ps = true →
      getTextPart dec ps = plainLeafConcat dec ps) ∧
    (∀ (dec : String → String) (m : Message) (ps : MimeParts), m.payload.parts = some ps →
      plainNodesAreLeaves ps = true → parse_message_body dec m = plainLeafConcat dec ps) ∧
    (∀ (dec : String → String) (m : Message), m.payload.parts = none →
      parse_message_body dec m =
        (match m.payload.data with
         | some d => dec d
         | none => "")) ∧
    parse_message_body idDec msgTwoLeaves = "hello" := by
  have main : ∀ (dec : String → String) (ps : MimeParts), plainNodesAreLeaves ps = true →
      getTextPart dec ps = plainLeafConcat dec ps :=
    fun dec ps hp => getTextPart_eq_plainLeafConcat_aux dec (partsSizeN ps) ps le_rfl hp
  refine ⟨main, ?_, ?_, by decide⟩
  · intro dec m ps hps hp
    rw [parse_message_body, hps]
    exact main dec ps hp
  · intro dec m hps
    rw [parse_message_body, hps]

def msgHtmlSingle : Message :=
  { threadId := none, labelIds := [],
    payload := { mimeType := "text/html", filename := none, data := some "<b>hi</b>",
                 attachmentId := none, size := none, headers := [], parts := none } }

/-- C4 counterexample: a single-part message whose payload is text/html with
    body data is NOT treated as an implicit leaf under the text/plain rule:
    the source returns its decoded data, while the claim-side rule returns the
    empty string. -/
theorem parse_message_body_single_part_counterexample :
    parse_message_body idDec msgHtmlSingle = "<b>hi</b>" ∧
    spec_leaf_extract idDec msgHtmlSingle = "" ∧
    parse_message_body idDec msgHtmlSingle ≠ spec_leaf_extract idDec msgHtmlSingle := by
  refine ⟨by decide, by decide, by decide⟩

theorem parse_message_body_plain_leaves_witness :
    plainNodesAreLeaves psTwoLeaves = true ∧
    parse_message_body idDec msgTwoLeaves = plainLeafConcat idDec psTwoLeaves :=
  ⟨by decide,
    parse_message_body_plain_leaves.2.1 idDec msgTwoLeaves psTwoLeaves rfl (by decide)⟩

/-- Claim-side: some part of the tree carries a truthy filename. -/
def anyFilenameIn : MimeParts → Bool
  | .nil => false
  | .cons (.mk _ fn _ _ _ parts) ps =>
    pyTruthy fn || anyFilenameIn parts || anyFilenameIn ps

/-- Some part of the tree carries a truthy filename and a truthy
    body.attachmentId (what the recursive listing actually collects). -/
def hasAttachmentIn : MimeParts → Bool
  | .nil => false
  | .cons (.mk _ fn _ aid _ parts) ps =>
    (pyTruthy fn && pyTruthy aid) || hasAttachmentIn parts || hasAttachmentIn ps

theorem find_attachments_ne_nil_aux :
    ∀ (n : Nat) (ps : MimeParts), partsSizeN ps ≤ n → hasAttachmentIn ps = true →
      find_attachments ps ≠ [] := by
  intro n
  induction n with
  | zero =>
    intro ps hsz hha
    cases ps with
    | nil => simp [hasAttachmentIn] at hha
    | cons p ps => cases p; simp [partsSizeN] at hsz
  | succ n ih =>
    intro ps hsz hha
    cases ps with
    | nil => simp [hasAttachmentIn] at hha
    | cons p ps =>
      cases p with
      | mk mime fn data aid sz parts =>
        have hszp : partsSizeN parts ≤ n := by simp [partsSizeN] at hsz; omega
        have hszs : partsSizeN ps ≤ n := by simp [partsSizeN] at hsz; omega
        simp only [hasAttachmentIn, Bool.or_eq_true, Bool.and_eq_true] at hha
        intro heq
        simp only [find_attachments] at heq
        rcases List.append_eq_nil.mp heq with ⟨h12, h3⟩
        rcases List.append_eq_nil.mp h12 with ⟨h1, h2⟩
        rcases hha with (⟨hfn, haid⟩ | hp) | hs
        · cases fn with
          | none => simp [pyTruthy] at hfn
          | some f =>
            cases aid with
            | none => simp [pyTruthy] at haid
            | some a =>
              simp [pyTruthy] at hfn haid
              simp [hfn, haid] at h1
        · exact ih parts hszp hp h2
        · exact ih ps hszs hs h3

theorem find_attachments_ne_nil_of_deep_aux :
    ∀ (n : Nat) (ps : MimeParts), partsSizeN ps ≤ n →
      MimeParts.any (fun p => hasAttachmentIn p.parts) ps = true →
      find_attachments ps ≠ [] := by
  intro n
  induction n with
  | zero =>
    intro ps hsz hha
    cases ps with
    | nil => simp [MimeParts.any] at hha
    | cons p ps => cases p; simp [partsSizeN] at hsz
  | succ n ih =>
    intro ps hsz hha
    cases ps with
    | nil => simp [MimeParts.any] at hha
    | cons p ps =>
      cases p with
      | mk mime fn data aid sz parts =>
        have hszp : partsSizeN parts ≤ partsSizeN parts := le_rfl
        have hszs : partsSizeN ps ≤ n := by simp [partsSizeN] at hsz; omega
        simp only [MimeParts.any, MimePart.parts, Bool.or_eq_true] at hha
        intro heq
        simp only [find_attachments] at heq
        rcases List.append_eq_nil.mp heq with ⟨h12, h3⟩
        rcases List.append_eq_nil.mp h12 with ⟨h1, h2⟩
        rcases hha with hp | hs
        · exact find_attachments_ne_nil_aux (partsSizeN parts) parts le_rfl hp h2
        · exact ih ps hszs hs h3

/-- C9 amended: for a message whose immediate part list carries no truthy
    filename but whose tree holds, strictly below the top level, a part with a
    truthy filename AND a truthy attachment id, the projected has_attachments
    is false while the recursive attachment listing is non-empty. -/
theorem has_attachments_shallow_vs_recursive (m : Message) (ps : MimeParts)
    (hps : m.payload.parts = some ps)
    (hshallow : MimeParts.any (fun p => pyTruthy p.filename) ps = false)
    (hdeep : MimeParts.any (fun p => hasAttachmentIn p.parts) ps = true) :
    check_message_has_attachments m = false ∧ list_message_attachments m ≠ [] := by
  constructor
  · rw [check_message_has_attachments, hps]
    exact hshallow
  · rw [list_message_attachments, hps]
    exact find_attachments_ne_nil_of_deep_aux (partsSizeN ps) ps le_rfl hdeep

def psNestedNoId : MimeParts :=
  .cons (.mk "multipart/mixed" none none none none
    (.cons (.mk "text/plain" (some "a.txt") none none none .nil) .nil)) .nil

def msgNestedNoId : Message :=
  { threadId := none, labelIds := [],
    payload := { mimeType := "multipart/mixed", filename := none, data := none,
                 attachmentId := none, size := none, headers := [],
                 parts := some psNestedNoId } }

/-- C9 counterexample: a message whose only filename-bearing part sits
    strictly below the top level but carries no attachment id: the shallow
    projection is false as claimed, yet the recursive listing is empty, not
    non-empty. -/
theorem shallow_vs_recursive_counterexample :
    MimeParts.any (fun p => pyTruthy p.filename) psNestedNoId = false ∧
    MimeParts.any (fun p => anyFilenameIn p.parts) psNestedNoId = true ∧
    check_message_has_attachments msgNestedNoId = false ∧
    list_message_attachments msgNestedNoId = [] := by
  refine ⟨by decide, by decide, by decide, by decide⟩

def psNestedWithId : MimeParts :=
  .cons (.mk "multipart/mixed" none none none none
    (.cons (.mk "application/pdf" (some "a.pdf") none (some "att1") (some 5) .nil) .nil)) .nil

def msgNestedWithId : Message :=
  { threadId := none, labelIds := [],
    payload := { mimeType := "multipart/mixed", filename := none, data := none,
                 attachmentId := none, size := none, headers := [],
                 parts := some psNestedWithId } }

theorem has_attachments_shallow_vs_recursive_witness :
    check_message_has_attachments msgNestedWithId = false ∧
    list_message_attachments msgNestedWithId ≠ [] :=
  has_attachments_shallow_vs_recursive msgNestedWithId psNestedWithId rfl
    (by decide) (by decide)

/-- The lines contributed by one requested field name, with the exact line
    contents of format_message_with_fields. -/
def field_line (dec : String → String) (m : Message) (message_id : String) :
    String → List String
  | "id" => ["Message ID: " ++ message_id]
  | "thread_id" =>
    let thread_id := m.threadId.getD ""
    if thread_id = "" then [] else ["Thread ID: " ++ thread_id]
  | "from" => ["From: " ++ getHeaderD m.payload.headers "From" "Unknown"]
  | "to" => ["To: " ++ getHeaderD m.payload.headers "To" "Unknown"]
  | "subject" => ["Subject: " ++ getHeaderD m.payload.headers "Subject" "No Subject"]
  | "date" => ["Date: " ++ getHeaderD m.payload.headers "Date" "Unknown Date"]
  | "labels" =>
    if m.labelIds.isEmpty then [] else ["Labels: " ++ String.intercalate ", " m.labelIds]
  | "has_attachments" =>
    ["Has Attachments: " ++ pyStrBool
      (match m.payload.parts with
       | some ps => ps.any fun p => pyTruthy p.filename
       | none => false)]
  | "web_url" => ["Web URL: " ++ get_gmail_web_url 0 message_id]
  | "body_preview" =>
    let body := parse_message_body dec m
    let preview := pyStrip ⟨(body.data.take 200).map fun c => if c == '\n' then ' ' else c⟩
    ["Preview: " ++ (if 200 < body.data.length then preview ++ "..." else preview)]
  | "body" => ["\nBody:\n" ++ parse_message_body dec m]
  | _ => []

/-- The requested fields of a given order list, each contributing its lines. -/
def render_fields_lines (dec : String → String) (m : Message) (message_id : String)
    (order fields : List String) : List String :=
  ((order.filter fun f => fields.contains f).map (field_line dec m message_id)).flatten

/-- A field block rendered in the order of a given field-name list. -/
def render_fields_in_order (dec : String → String) (m : Message) (message_id : String)
    (order fields : List String) : String :=
  String.intercalate "\n" (render_fields_lines dec m message_id order fields)

/-- The fixed order in which format_message_with_fields appends its lines. -/
def CODE_MESSAGE_FIELD_ORDER : List String :=
  ["id", "thread_id", "from", "to", "subject", "date", "labels", "has_attachments",
   "web_url", "body_preview", "body"]

theorem render_lines_cons (dec : String → String) (m : Message) (mid f : String)
    (rest fields : List String) :
    render_fields_lines dec m mid (f :: rest) fields =
      (if fields.contains f then field_line dec m mid f else []) ++
        render_fields_lines dec m mid rest fields := by
  simp only [render_fields_lines, List.filter_cons]
  split
  · simp
  · simp

def msgC3 : Message :=
  { threadId := some "t1", labelIds := ["INBOX"],
    payload := { mimeType := "text/plain", filename := none, data := some "hello",
                 attachmentId := none, size := none,
                 headers := [("From", "A"), ("Subject", "S")], parts := none } }

/-- C3 counterexample: with requested fields subject and from, the projection
    renders the From line before the Subject line (the fixed source order),
    not the canonical-enumeration order of the claim, which would put Subject
    first. -/
theorem field_projection_order_counterexample :
    format_message_with_fields idDec msgC3 "m1" (parse_message_fields (some "subject,from")) =
      "From: A\nSubject: S" ∧
    render_fields_in_order idDec msgC3 "m1" AVAILABLE_MESSAGE_FIELDS
      (parse_message_fields (some "subject,from")) = "Subject: S\nFrom: A" ∧
    format_message_with_fields idDec msgC3 "m1" (parse_message_fields (some "subject,from")) ≠
      render_fields_in_order idDec msgC3 "m1" AVAILABLE_MESSAGE_FIELDS
        (parse_message_fields (some "subject,from")) := by
  refine ⟨by decide, by decide, by decide⟩

/-- C3 amended: the field projection depends on the requested set only through
    membership (so never on the caller's input order), renders the requested
    known fields in the fixed source order id, thread_id, from, to, subject,
    date, labels, has_attachments, web_url, body_preview, body (with the
    thread-id and labels lines omitted when the message carries none), a
    requested set empty after discarding unknown names falls back to the
    default set, and the sentinel all expands to the full enumeration. -/
theorem field_projection_fixed_code_order :
    (∀ (dec : String → String) (m : Message) (mid : String) (fs1 fs2 : List String),
      (∀ f, fs1.contains f = fs2.contains f) →
      format_message_with_fields dec m mid fs1 = format_message_with_fields dec m mid fs2) ∧
    (∀ (dec : String → String) (m : Message) (mid : String) (fields : List String),
      format_message_with_fields dec m mid fields =
        render_fields_in_order dec m mid CODE_MESSAGE_FIELD_ORDER fields) ∧
    parse_message_fields none = DEFAULT_MESSAGE_FIELDS ∧
    parse_message_fields (some "all") = AVAILABLE_MESSAGE_FIELDS ∧
    (∀ fp : String, pyLower fp ≠ "all" → valid_fields fp = [] →
      parse_message_fields (some fp) = DEFAULT_MESSAGE_FIELDS) := by
  refine ⟨?_, ?_, rfl, by decide, ?_⟩
  · intro dec m mid fs1 fs2 h
    simp only [format_message_with_fields, h]
  · intro dec m mid fields
    simp only [render_fields_in_order, CODE_MESSAGE_FIELD_ORDER, render_lines_cons,
      field_line, format_message_with_fields]
    simp only [render_fields_lines, List.filter_nil, List.map_nil, List.flatten_nil,
      List.append_nil, List.append_assoc]
  · intro fp h1 h2
    simp [parse_message_fields, h1, h2]

theorem field_projection_fixed_code_order_witness :
    parse_message_fields (some "bogus, junk") = DEFAULT_MESSAGE_FIELDS ∧
    format_message_with_fields idDec msgC3 "m1" ["from", "subject"] =
      format_message_with_fields idDec msgC3 "m1" ["subject", "from"] :=
  ⟨field_projection_fixed_code_order.2.2.2.2 "bogus, junk" (by decide) (by decide),
    field_projection_fixed_code_order.1 idDec msgC3 "m1" ["from", "subject"]
      ["subject", "from"]
      (by
        intro f
        by_cases h1 : f = "from" <;> by_cases h2 : f = "subject" <;>
          simp [h1, h2, List.contains_cons])⟩

/-- Concatenation of a list of strings in order. -/
def concatStrings : List String → String
  | [] => ""
  | s :: rest => s ++ concatStrings rest

theorem search_result_sections_eq (parseFmt : String → Option String) (dec : String → String)
    (getMsg : String → Message) :
    ∀ (ids : List String) (i : Nat),
      search_result_sections parseFmt dec getMsg i ids =
        concatStrings ((List.enumFrom i ids).map fun q =>
          search_result_section parseFmt dec getMsg q.1 q.2) := by
  intro ids
  induction ids with
  | nil => intro i; rfl
  | cons x xs ih =>
    intro i
    simp only [search_result_sections, List.enumFrom, List.map_cons, concatStrings, ih]

/-- C10 amended: when the dates validate, the search tool returns a document
    that is exactly a header block stating the result count and a query
    string, followed by one numbered subsection per matched message in
    provider order; on the raw path the stated query string is the provider
    query itself, while on the structured path it is the reconstruction from
    only the sender, recipient and subject clauses (or the literal
    "all messages"), not the provider query actually searched. -/
theorem search_results_document_structure (p : SearchParams)
    (runQuery : String → List String) (getMsg : String → Message)
    (parseFmt : String → Option String) (dec : String → String)
    (pyd : Char → Bool) (pydv : Char → Nat)
    (hda : (pyTruthy p.after_date && ! validate_date_format pyd pydv p.after_date) = false)
    (hdb : (pyTruthy p.before_date && ! validate_date_format pyd pydv p.before_date) = false) :
    (pyTruthy p.gmail_query = false →
      search_emails p runQuery getMsg parseFmt dec pyd pydv = .ok
        ⟨search_messages_query (searchArgsOf p), build_result_query_str p,
          runQuery (search_messages_query (searchArgsOf p)),
          search_results_header (build_result_query_str p)
            (runQuery (search_messages_query (searchArgsOf p))).length ++
          concatStrings ((List.enumFrom 1
              (runQuery (search_messages_query (searchArgsOf p)))).map fun q =>
            search_result_section parseFmt dec getMsg q.1 q.2)⟩) ∧
    (pyTruthy p.gmail_query = true → anyExplicitParam p = false →
      search_emails p runQuery getMsg parseFmt dec pyd pydv = .ok
        ⟨p.gmail_query.getD "", p.gmail_query.getD "",
          runQuery (p.gmail_query.getD ""),
          search_results_header (p.gmail_query.getD "")
            (runQuery (p.gmail_query.getD "")).length ++
          concatStrings ((List.enumFrom 1 (runQuery (p.gmail_query.getD ""))).map fun q =>
            search_result_section parseFmt dec getMsg q.1 q.2)⟩) := by
  constructor
  · intro hq
    unfold search_emails
    rw [if_neg (by simp [hda]), if_neg (by simp [hdb]), if_neg (by simp [hq])]
    simp only [search_result_sections_eq]
  · intro hq hx
    unfold search_emails
    rw [if_neg (by simp [hda]), if_neg (by simp [hdb]), if_pos hq, if_neg (by simp [hx])]
    simp only [search_result_sections_eq]

def pUnread : SearchParams :=
  ⟨none, none, none, false, some "unread", none, none, none, none⟩

/-- C10 counterexample: a structured search filtering only on read status
    searches the provider with the query "is:unread", but the materialized
    document's header block states "all messages", not the query string that
    was used for the provider search. -/
theorem search_results_header_counterexample :
    search_emails pUnread runNone msgOracleEmpty noParse idDec Char.isDigit digitVal =
      .ok ⟨"is:unread", "all messages", [], search_results_header "all messages" 0⟩ ∧
    search_results_header "all messages" 0 ≠ search_results_header "is:unread" 0 := by
  refine ⟨rfl, by decide⟩

theorem search_results_document_structure_witness :
    search_emails pUnread runNone msgOracleEmpty noParse idDec Char.isDigit digitVal = .ok
      ⟨search_messages_query (searchArgsOf pUnread), build_result_query_str pUnread,
        runNone (search_messages_query (searchArgsOf pUnread)),
        search_results_header (build_result_query_str pUnread)
          (runNone (search_messages_query (searchArgsOf pUnread))).length ++
        concatStrings ((List.enumFrom 1
            (runNone (search_messages_query (searchArgsOf pUnread)))).map fun q =>
          search_result_section noParse idDec msgOracleEmpty q.1 q.2)⟩ :=
  (search_results_document_structure pUnread runNone msgOracleEmpty noParse idDec
    Char.isDigit digitVal (by decide) (by decide)).1 (by decide)
theorem digit_cases (c : Char) (h : c.isDigit = true) :
    c = '0' ∨ c = '1' ∨ c = '2' ∨ c = '3' ∨ c = '4' ∨ c = '5' ∨ c = '6' ∨ c = '7' ∨
    c = '8' ∨ c = '9' := by
  simp only [Char.isDigit, Bool.and_eq_true, decide_eq_true_eq, ge_iff_le] at h
  obtain ⟨h1, h2⟩ := h
  have ha : 48 ≤ c.toNat := UInt32.le_toNat_of_le (by decide) h1
  have hb : c.toNat ≤ 57 := UInt32.toNat_le_of_le (by decide) h2
  have hke : ∀ n, c.toNat = n → c = Char.ofNat n := fun n hn2 => by
    rw [← hn2, Char.ofNat_toNat]
  have hn : c.toNat = 48 ∨ c.toNat = 49 ∨ c.toNat = 50 ∨ c.toNat = 51 ∨ c.toNat = 52 ∨
      c.toNat = 53 ∨ c.toNat = 54 ∨ c.toNat = 55 ∨ c.toNat = 56 ∨ c.toNat = 57 := by omega
  rcases hn with h0 | h0 | h0 | h0 | h0 | h0 | h0 | h0 | h0 | h0 <;>
    rw [hke _ h0] <;> simp

theorem monthSlashStep_digits (e f : Char) (he : e.isDigit = true) (hf : f.isDigit = true)
    (rest : List Char) :
    monthSlashStep (e :: f :: '/' :: rest) =
      if 1 ≤ 10 * digitVal e + digitVal f ∧ 10 * digitVal e + digitVal f ≤ 12 then
        some (10 * digitVal e + digitVal f, rest)
      else none := by
  rcases digit_cases e he with rfl | rfl | rfl | rfl | rfl | rfl | rfl | rfl | rfl | rfl <;>
    rcases digit_cases f hf with rfl | rfl | rfl | rfl | rfl | rfl | rfl | rfl | rfl | rfl <;>
      simp [monthSlashStep, parseMonthChars, digitVal]

theorem dayEndStep_digits (pyd : Char → Bool) (pydv : Char → Nat) (g h : Char)
    (hg : g.isDigit = true) (hh : h.isDigit = true)
    (hpdh : pyd h = true) (hvh : pydv h = digitVal h) (tail : List Char) :
    dayEndStep pyd pydv (g :: h :: tail) =
      if tail = [] ∧ 1 ≤ 10 * digitVal g + digitVal h ∧ 10 * digitVal g + digitVal h ≤ 31 then
        some (10 * digitVal g + digitVal h)
      else none := by
  rcases digit_cases g hg with rfl | rfl | rfl | rfl | rfl | rfl | rfl | rfl | rfl | rfl <;>
    rcases digit_cases h hh with rfl | rfl | rfl | rfl | rfl | rfl | rfl | rfl | rfl | rfl <;>
      cases tail <;> simp [dayEndStep, parseDayChars, digitVal, hpdh, hvh]

theorem parseYear_digits (pyd : Char → Bool) (pydv : Char → Nat) (a b c d : Char)
    (hpa : pyd a = true) (hpb : pyd b = true) (hpc : pyd c = true) (hpd : pyd d = true)
    (hva : pydv a = digitVal a) (hvb : pydv b = digitVal b) (hvc : pydv c = digitVal c)
    (hvd : pydv d = digitVal d) (rest : List Char) :
    parseYear pyd pydv (a :: b :: c :: d :: rest) =
      some (1000 * digitVal a + 100 * digitVal b + 10 * digitVal c + digitVal d, rest) := by
  simp [parseYear, hpa, hpb, hpc, hpd, hva, hvb, hvc, hvd]

theorem digitVal_le_9 (c : Char) (h : c.isDigit = true) : digitVal c ≤ 9 := by
  rcases digit_cases c h with rfl | rfl | rfl | rfl | rfl | rfl | rfl | rfl | rfl | rfl <;>
    simp [digitVal]

theorem strptime_shape_tail (pyd : Char → Bool) (pydv : Char → Nat) (a b c d e f g h : Char)
    (hpa : pyd a = true) (hpb : pyd b = true) (hpc : pyd c = true) (hpd : pyd d = true)
    (hva : pydv a = digitVal a) (hvb : pydv b = digitVal b) (hvc : pydv c = digitVal c)
    (hvd : pydv d = digitVal d)
    (he : e.isDigit = true) (hf : f.isDigit = true)
    (hg : g.isDigit = true) (hh : h.isDigit = true)
    (hpdh : pyd h = true) (hvh : pydv h = digitVal h) (tail : List Char) :
    strptimeYmdChars pyd pydv (a :: b :: c :: d :: '/' :: e :: f :: '/' :: g :: h :: tail) =
      if tail = [] ∧ 1 ≤ 10 * digitVal e + digitVal f ∧ 10 * digitVal e + digitVal f ≤ 12 ∧
          1 ≤ 10 * digitVal g + digitVal h ∧ 10 * digitVal g + digitVal h ≤ 31 then
        some (1000 * digitVal a + 100 * digitVal b + 10 * digitVal c + digitVal d,
          10 * digitVal e + digitVal f, 10 * digitVal g + digitVal h)
      else none := by
  rw [strptimeYmdChars]
  rw [parseYear_digits pyd pydv a b c d hpa hpb hpc hpd hva hvb hvc hvd]
  simp only
  rw [if_pos (by simp : ('/' == '/') = true)]
  rw [monthSlashStep_digits e f he hf]
  by_cases h1 : 1 ≤ 10 * digitVal e + digitVal f ∧ 10 * digitVal e + digitVal f ≤ 12
  · rw [if_pos h1]
    simp only
    rw [dayEndStep_digits pyd pydv g h hg hh hpdh hvh]
    by_cases h2 : tail = [] ∧ 1 ≤ 10 * digitVal g + digitVal h ∧
        10 * digitVal g + digitVal h ≤ 31
    · rw [if_pos h2, if_pos ⟨h2.1, h1.1, h1.2, h2.2.1, h2.2.2⟩]
    · rw [if_neg h2, if_neg (by tauto)]
  · rw [if_neg h1, if_neg (by tauto)]

theorem daysInMonth_le_31 (y m : Nat) : daysInMonth y m ≤ 31 := by
  unfold daysInMonth
  split
  · split <;> omega
  · split <;> omega

theorem isDatePatShape_decomp (pyd : Char → Bool) (l : List Char)
    (hsh : isDatePatShape pyd l = true) :
    ∃ a b c d e f g h, l = [a, b, c, d, '/', e, f, '/', g, h] ∧
      pyd a = true ∧ pyd b = true ∧ pyd c = true ∧ pyd d = true ∧
      pyd e = true ∧ pyd f = true ∧ pyd g = true ∧ pyd h = true := by
  rcases l with _ | ⟨a, _ | ⟨b, _ | ⟨c, _ | ⟨d, _ | ⟨s1, _ | ⟨e, _ | ⟨f, _ | ⟨s2, _ |
    ⟨g, _ | ⟨h, _ | ⟨x, rest⟩⟩⟩⟩⟩⟩⟩⟩⟩⟩⟩ <;>
    simp only [isDatePatShape, Bool.and_eq_true, beq_iff_eq, and_assoc, Bool.false_eq_true] at hsh
  obtain ⟨ha, hb, hc, hd, hs1, he, hf, hs2, hg, hh⟩ := hsh
  subst hs1
  subst hs2
  exact ⟨a, b, c, d, e, f, g, h, rfl, ha, hb, hc, hd, he, hf, hg, hh⟩

/-- The claim-side pattern: exactly four digits, slash, two digits, slash,
    two digits, with the digit class the Unicode collaborator `pyd`. -/
def spec_date_pattern (pyd : Char → Bool) (s : String) : Bool :=
  isDatePatShape pyd s.toList

/-- The claim-side real-calendar-date test on a pattern-shaped string: a
    positive year, a month between 1 and 12, and a day between 1 and the
    length of that month (Gregorian leap rule), the denoted numbers read
    through the digit-value collaborator `pydv` (what int() yields). -/
def spec_real_date (pydv : Char → Nat) (s : String) : Bool :=
  match s.toList with
  | [a, b, c, d, s1, e, f, s2, g, h] =>
    (s1 == '/') && (s2 == '/') &&
    decide (1 ≤ 1000 * pydv a + 100 * pydv b + 10 * pydv c + pydv d) &&
    decide (1 ≤ 10 * pydv e + pydv f) &&
    decide (10 * pydv e + pydv f ≤ 12) &&
    decide (1 ≤ 10 * pydv g + pydv h) &&
    decide (10 * pydv g + pydv h ≤
      daysInMonth (1000 * pydv a + 100 * pydv b + 10 * pydv c + pydv d)
        (10 * pydv e + pydv f))
  | _ => false

theorem validate_reduces (pyd : Char → Bool) (pydv : Char → Nat) (s : String) (hs : s ≠ "")
    (hpm : pyMatchDate pyd s.toList = true) :
    validate_date_format pyd pydv (some s) =
      match strptimeYmdChars pyd pydv s.toList with
      | some (y, m, d) => datetimeCtorOk y m d
      | none => false := by
  show (if s = "" then true
    else if ! pyMatchDate pyd s.toList then false
    else
      match strptimeYmdChars pyd pydv s.toList with
      | some (y, m, d) => datetimeCtorOk y m d
      | none => false) = _
  have hnot : ¬ ((! pyMatchDate pyd s.toList) = true) := by
    intro hcon
    rw [hpm] at hcon
    exact absurd hcon (by decide)
  rw [if_neg hs, if_neg hnot]

/-- C6 amended: empty or absent input is valid; a non-empty string consisting
    only of ASCII characters is valid exactly when it matches the strict
    4-digit-year slash 2-digit-month slash 2-digit-day pattern and denotes a
    real calendar date (so 2024/02/30 is invalid and the leap date 2024/02/29
    is valid), for every Unicode digit collaborator that agrees with the
    ASCII digits on the ASCII range, as Python's does. -/
theorem validate_date_format_ascii_spec (pyd : Char → Bool) (pydv : Char → Nat)
    (hagree : ∀ c : Char, c.toNat < 128 → pyd c = c.isDigit)
    (hagreev : ∀ c : Char, c.isDigit = true → pydv c = digitVal c) :
    validate_date_format pyd pydv none = true ∧
    validate_date_format pyd pydv (some "") = true ∧
    (∀ s : String, s ≠ "" → (∀ c ∈ s.toList, c.toNat < 128) →
      (validate_date_format pyd pydv (some s) = true ↔
        spec_date_pattern pyd s = true ∧ spec_real_date pydv s = true)) ∧
    validate_date_format pyd pydv (some "2024/02/30") = false ∧
    validate_date_format pyd pydv (some "2024/02/29") = true := by
  have hiff : ∀ s : String, s ≠ "" → (∀ c ∈ s.toList, c.toNat < 128) →
      (validate_date_format pyd pydv (some s) = true ↔
        spec_date_pattern pyd s = true ∧ spec_real_date pydv s = true) := by
    intro s hs hA
    by_cases hshape : isDatePatShape pyd s.toList = true
    · obtain ⟨a, b, c, d, e, f, g, h, hl, hpa, hpb, hpc, hpd, hpe, hpf, hpg, hph⟩ :=
        isDatePatShape_decomp pyd s.toList hshape
      have hmem : ∀ x ∈ ([a, b, c, d, '/', e, f, '/', g, h] : List Char), x.toNat < 128 := by
        rw [← hl]; exact hA
      have hconv : ∀ x : Char, x ∈ ([a, b, c, d, '/', e, f, '/', g, h] : List Char) →
          pyd x = true → x.isDigit = true := by
        intro x hx hpx
        rw [← hagree x (hmem x hx)]
        exact hpx
      have ha : a.isDigit = true := hconv a (by simp) hpa
      have hb : b.isDigit = true := hconv b (by simp) hpb
      have hc : c.isDigit = true := hconv c (by simp) hpc
      have hd : d.isDigit = true := hconv d (by simp) hpd
      have he : e.isDigit = true := hconv e (by simp) hpe
      have hf : f.isDigit = true := hconv f (by simp) hpf
      have hg : g.isDigit = true := hconv g (by simp) hpg
      have hh : h.isDigit = true := hconv h (by simp) hph
      have hva : pydv a = digitVal a := hagreev a ha
      have hvb : pydv b = digitVal b := hagreev b hb
      have hvc : pydv c = digitVal c := hagreev c hc
      have hvd : pydv d = digitVal d := hagreev d hd
      have hve : pydv e = digitVal e := hagreev e he
      have hvf : pydv f = digitVal f := hagreev f hf
      have hvg : pydv g = digitVal g := hagreev g hg
      have hvh : pydv h = digitVal h := hagreev h hh
      have hpm : pyMatchDate pyd s.toList = true := by
        simp only [pyMatchDate, Bool.or_eq_true]
        exact Or.inl hshape
      rw [validate_reduces pyd pydv s hs hpm, hl,
        strptime_shape_tail pyd pydv a b c d e f g h hpa hpb hpc hpd hva hvb hvc hvd
          he hf hg hh hph hvh []]
      have hpat : spec_date_pattern pyd s = true := hshape
      have hya := digitVal_le_9 a ha
      have hyb := digitVal_le_9 b hb
      have hyc := digitVal_le_9 c hc
      have hyd := digitVal_le_9 d hd
      have hd31 := daysInMonth_le_31
        (1000 * digitVal a + 100 * digitVal b + 10 * digitVal c + digitVal d)
        (10 * digitVal e + digitVal f)
      have hreal : spec_real_date pydv s =
          (decide (1 ≤ 1000 * digitVal a + 100 * digitVal b + 10 * digitVal c + digitVal d) &&
           decide (1 ≤ 10 * digitVal e + digitVal f) &&
           decide (10 * digitVal e + digitVal f ≤ 12) &&
           decide (1 ≤ 10 * digitVal g + digitVal h) &&
           decide (10 * digitVal g + digitVal h ≤
             daysInMonth (1000 * digitVal a + 100 * digitVal b + 10 * digitVal c + digitVal d)
               (10 * digitVal e + digitVal f))) := by
        rw [spec_real_date, hl]
        simp [hva, hvb, hvc, hvd, hve, hvf, hvg, hvh]
      by_cases hC : ([] : List Char) = [] ∧ 1 ≤ 10 * digitVal e + digitVal f ∧
          10 * digitVal e + digitVal f ≤ 12 ∧ 1 ≤ 10 * digitVal g + digitVal h ∧
          10 * digitVal g + digitVal h ≤ 31
      · rw [if_pos hC]
        simp only [hpat, hreal, true_and, datetimeCtorOk, Bool.and_eq_true, decide_eq_true_eq]
        constructor
        · rintro ⟨⟨⟨⟨⟨hy1, hy2⟩, hm1⟩, hm2⟩, hdd1⟩, hdd2⟩
          exact ⟨⟨⟨⟨hy1, hm1⟩, hm2⟩, hdd1⟩, hdd2⟩
        · rintro ⟨⟨⟨⟨hy1, hm1⟩, hm2⟩, hdd1⟩, hdd2⟩
          refine ⟨⟨⟨⟨⟨hy1, by omega⟩, hm1⟩, hm2⟩, hdd1⟩, hdd2⟩
      · rw [if_neg hC]
        simp only [hpat, hreal, true_and, Bool.and_eq_true, decide_eq_true_eq]
        constructor
        · intro hfalse
          exact absurd hfalse (by simp)
        · rintro ⟨⟨⟨⟨hy1, hm1⟩, hm2⟩, hdd1⟩, hdd2⟩
          exact absurd ⟨rfl, hm1, hm2, hdd1, by omega⟩ hC
    · have hpatF : spec_date_pattern pyd s = false := by
        simp only [spec_date_pattern]
        exact Bool.eq_false_iff.mpr hshape
      have hiff2 : ¬ (spec_date_pattern pyd s = true ∧ spec_real_date pydv s = true) := by
        rw [hpatF]
        simp
      simp only [hiff2, iff_false]
      intro hval
      by_cases hpm : pyMatchDate pyd s.toList = true
      · have hx : (match s.toList.getLast? with
          | some c => c == '\n' && isDatePatShape pyd s.toList.dropLast
          | none => false) = true := by
          have := hpm
          simp only [pyMatchDate, Bool.or_eq_true] at this
          rcases this with h1 | h1
          · exact absurd h1 hshape
          · exact h1
        rcases hlast : s.toList.getLast? with _ | c
        · rw [hlast] at hx; simp at hx
        · rw [hlast] at hx
          simp only [Bool.and_eq_true, beq_iff_eq] at hx
          obtain ⟨hcn, hdshape⟩ := hx
          subst hcn
          obtain ⟨ys, hys⟩ := List.getLast?_eq_some_iff.mp hlast
          rw [hys, List.dropLast_concat] at hdshape
          obtain ⟨a, b, c, d, e, f, g, h, hl2, hpa, hpb, hpc, hpd, hpe, hpf, hpg, hph⟩ :=
            isDatePatShape_decomp pyd ys hdshape
          have hmem : ∀ x ∈ ([a, b, c, d, '/', e, f, '/', g, h] : List Char),
              x.toNat < 128 := by
            intro x hx2
            apply hA
            rw [hys, hl2]
            exact List.mem_append_left _ hx2
          have hconv : ∀ x : Char, x ∈ ([a, b, c, d, '/', e, f, '/', g, h] : List Char) →
              pyd x = true → x.isDigit = true := by
            intro x hx2 hpx
            rw [← hagree x (hmem x hx2)]
            exact hpx
          have ha : a.isDigit = true := hconv a (by simp) hpa
          have hb : b.isDigit = true := hconv b (by simp) hpb
          have hc : c.isDigit = true := hconv c (by simp) hpc
          have hd : d.isDigit = true := hconv d (by simp) hpd
          have he : e.isDigit = true := hconv e (by simp) hpe
          have hf : f.isDigit = true := hconv f (by simp) hpf
          have hg : g.isDigit = true := hconv g (by simp) hpg
          have hh : h.isDigit = true := hconv h (by simp) hph
          rw [validate_reduces pyd pydv s hs hpm] at hval
          rw [hys, hl2] at hval
          have hshift : ([a, b, c, d, '/', e, f, '/', g, h] : List Char) ++ ['\n'] =
              a :: b :: c :: d :: '/' :: e :: f :: '/' :: g :: h :: ['\n'] := rfl
          rw [hshift, strptime_shape_tail pyd pydv a b c d e f g h hpa hpb hpc hpd
            (hagreev a ha) (hagreev b hb) (hagreev c hc) (hagreev d hd)
            he hf hg hh hph (hagreev h hh) ['\n']] at hval
          rw [if_neg (by simp)] at hval
          simp at hval
      · have hpmF : pyMatchDate pyd s.toList = false := Bool.eq_false_iff.mpr hpm
        rw [validate_date_format] at hval
        rw [if_neg hs, if_pos (by rw [hpmF]; decide)] at hval
        exact absurd hval (by decide)
  refine ⟨rfl, rfl, hiff, ?_, ?_⟩
  · rw [Bool.eq_false_iff]
    intro hv
    obtain ⟨hp, hr⟩ := (hiff "2024/02/30" (by decide) (by decide)).mp hv
    have hlist : "2024/02/30".toList = ['2', '0', '2', '4', '/', '0', '2', '/', '3', '0'] := rfl
    rw [spec_real_date, hlist] at hr
    simp only [hagreev '2' (by decide), hagreev '0' (by decide), hagreev '4' (by decide),
      hagreev '3' (by decide)] at hr
    exact absurd hr (by decide)
  · apply (hiff "2024/02/29" (by decide) (by decide)).mpr
    have hlist : "2024/02/29".toList = ['2', '0', '2', '4', '/', '0', '2', '/', '2', '9'] := rfl
    constructor
    · rw [spec_date_pattern, hlist]
      simp only [isDatePatShape]
      simp only [hagree '2' (by decide), hagree '0' (by decide), hagree '4' (by decide),
        hagree '9' (by decide)]
      decide
    · rw [spec_real_date, hlist]
      simp only [hagreev '2' (by decide), hagreev '0' (by decide), hagreev '4' (by decide),
        hagreev '9' (by decide)]
      decide

/-- A concrete instance of the Unicode digit collaborators correct on the
    ASCII and Arabic-Indic blocks, as Python's re \d, strptime and int() are:
    the characters U+0660 to U+0669 are decimal digits of value 0 to 9. -/
def pydU : Char → Bool := fun c => c.isDigit || ('٠' ≤ c && c ≤ '٩')

def pydvU : Char → Nat := fun c =>
  if '٠' ≤ c && c ≤ '٩' then c.toNat - 1632 else digitVal c

/-- C6 counterexample: with the digit collaborators behaving as Python's do
    on Arabic-Indic digits, the string 2024/(U+0660)2/29 matches the Unicode
    date pattern and denotes the real calendar date 2024-02-29, yet
    validation rejects it (strptime's month alternation only accepts ASCII
    digits), so valid is not equivalent to pattern-match and real date. -/
theorem validate_date_format_unicode_counterexample :
    validate_date_format pydU pydvU (some "2024/٠2/29") = false ∧
    spec_date_pattern pydU "2024/٠2/29" = true ∧
    spec_real_date pydvU "2024/٠2/29" = true := by
  refine ⟨by decide, by decide, by decide⟩

theorem validate_date_format_ascii_spec_witness :
    "2023/04/31" ≠ "" ∧ (∀ c ∈ "2023/04/31".toList, c.toNat < 128) ∧
    (validate_date_format Char.isDigit digitVal (some "2023/04/31") = true ↔
      spec_date_pattern Char.isDigit "2023/04/31" = true ∧
      spec_real_date digitVal "2023/04/31" = true) :=
  ⟨by decide, by decide,
    (validate_date_format_ascii_spec Char.isDigit digitVal (fun _ _ => rfl)
      (fun _ _ => rfl)).2.2.1 "2023/04/31" (by decide) (by decide)⟩
